import Mathlib

/-!
# Request-logging middleware (`logger.go`)

A shallow embedding of the package `logger`: the transaction and debug
records, the handler returned by `LoggingMiddleware`, the capturing
`ResponseWriter`, `LogDebugMessage` and the cached `getHostname`.

Library calls the source makes are embedded by what they do on the values the
source hands them: `io.ReadAll`, `bytes.Buffer`, `time.Time`, `filepath.Base`,
`runtime.Caller`, `trace.SpanFromContext` and gin's response writer.
Byte strings (`[]byte`, and the Go strings that hold a body) are lists of
bytes; every other Go string is a `String`.
-/

namespace Logger

/-! ## Bytes, buffers and readers -/

/-- One byte. -/
abbrev Byte := Fin 256

/-- The bytes of an ASCII text. -/
def ascii (s : String) : List Byte :=
  s.toList.map (fun c => Fin.ofNat c.toNat)

/-- An `error` returned by a `Read`: `io.EOF`, or any other error. -/
inductive ReadErr where
  | EOF
  | other (msg : String)
deriving DecidableEq, Repr

/-- The result `(n, err)` of one `Read`, with the `n` bytes it stored. -/
abbrev ReadResult := List Byte × Option ReadErr

/-- A `bytes.Buffer`: the unread contents are `buf[off:]`. -/
structure Buffer where
  buf : List Byte
  off : Nat
deriving DecidableEq, Repr

/-- `bytes.NewBuffer(b)` and `bytes.NewBufferString(s)`: nothing read yet. -/
def Buffer.new (b : List Byte) : Buffer := { buf := b, off := 0 }

/-- `(*Buffer).Len`: the number of unread bytes. -/
def Buffer.Len (b : Buffer) : Nat := b.buf.length - b.off

/-- `(*Buffer).String`: the unread bytes. -/
def Buffer.String (b : Buffer) : List Byte := b.buf.drop b.off

/-- `(*Buffer).Write`: appends `p`. -/
def Buffer.Write (b : Buffer) (p : List Byte) : Buffer :=
  { b with buf := b.buf ++ p }

/-- `(*Buffer).Read(p)` with `len(p) = n`: an empty buffer is reset and
answers `io.EOF` (nil for an empty `p`); otherwise up to `n` unread bytes are
copied out and the offset moves past them. -/
def Buffer.Read (b : Buffer) (n : Nat) : ReadResult × Buffer :=
  if b.buf.length ≤ b.off then
    (([], if n = 0 then none else some ReadErr.EOF), { buf := [], off := 0 })
  else
    let chunk := (b.buf.drop b.off).take n
    ((chunk, none), { b with off := b.off + chunk.length })

/-- The behaviour of an incoming request body, as the results its successive
`Read` calls give: `more d rest` is a `Read` that stores `d` and returns a
nil error, `last d e` a `Read` that stores `d` and returns the error `e`
(`io.EOF` or a failure). -/
inductive Stream where
  | last (data : List Byte) (err : ReadErr)
  | more (data : List Byte) (rest : Stream)
deriving DecidableEq, Repr

/-- An `io.ReadCloser` held in `Request.Body`: the incoming stream, or the
`io.NopCloser` over a `bytes.Buffer` that the middleware installs. -/
inductive Body where
  | stream (s : Stream)
  | buffer (b : Buffer)
deriving DecidableEq, Repr

/-- One `Read(p)` on a body, with `len(p) = n`. A stream that has returned an
error keeps returning it. -/
def Body.Read : Body → Nat → ReadResult × Body
  | Body.stream (Stream.more d rest), _ => ((d, none), Body.stream rest)
  | Body.stream (Stream.last d e), _ => ((d, some e), Body.stream (Stream.last [] e))
  | Body.buffer b, n => ((b.Read n).1, Body.buffer (b.Read n).2)

/-- The number of `Read` calls after which a stream has returned an error. -/
def Stream.reads : Stream → Nat
  | Stream.last _ _ => 1
  | Stream.more _ rest => rest.reads + 1

/-- A number of `Read` calls within which a body returns an error: a buffer
gives up at least one byte per read of a non-empty slice until it is empty. -/
def Body.reads : Body → Nat
  | Body.stream s => s.reads
  | Body.buffer b => b.Len + 1

/-- The free capacity `io.ReadAll` offers to each `Read`; it is positive at
every call (the slice is grown when full). -/
def readSize : Nat := 512

/-- The loop of `io.ReadAll`: `Read` into the free capacity, keep the bytes,
and stop at the first error, where `io.EOF` is reported as nil. -/
def ReadAllLoop : Nat → Body → List Byte → List Byte × Option ReadErr
  | 0, _, b => (b, none)
  | k + 1, r, b =>
    match r.Read readSize with
    | ((data, some e), _) => (b ++ data, if e = ReadErr.EOF then none else some e)
    | ((data, none), r') => ReadAllLoop k r' (b ++ data)

/-- `io.ReadAll(r)`: the loop runs until the body returns an error, which it
does within `r.reads` calls. -/
def ReadAll (r : Body) : List Byte × Option ReadErr :=
  ReadAllLoop r.reads r []

/-! ## Time -/

/-- One reading of the system clocks, in nanoseconds: the wall clock since
the Unix epoch and the monotonic clock. The operating system keeps the wall
clock as a non-negative signed 64-bit count, which `wall_lt` records. -/
structure ClockReading where
  wall : Nat
  mono : Int
  wall_lt : wall < 2 ^ 63

/-- A `time.Time`: the wall-clock instant in nanoseconds since the Unix epoch
and, when present, the monotonic clock reading. -/
structure Time where
  wall : Int
  mono : Option Int
deriving DecidableEq, Repr

/-- `time.Now()`: carries both the wall and the monotonic reading. -/
def timeNow (r : ClockReading) : Time := { wall := r.wall, mono := some r.mono }

/-- `(Time).UTC()`: sets the location to UTC, which strips the monotonic
reading. -/
def Time.UTC (t : Time) : Time := { t with mono := none }

/-- The smallest `time.Duration`, in nanoseconds. -/
def minDuration : Int := -(2 ^ 63)

/-- The largest `time.Duration`, in nanoseconds. -/
def maxDuration : Int := 2 ^ 63 - 1

/-- A difference of two instants as a `time.Duration`: out-of-range values
saturate. -/
def saturate (d : Int) : Int :=
  if d < minDuration then minDuration
  else if maxDuration < d then maxDuration
  else d

/-- `t.Sub(u)`: the monotonic readings are compared when both times have one,
the wall-clock instants otherwise. -/
def Time.Sub (t u : Time) : Int :=
  match t.mono, u.mono with
  | some a, some b => saturate (a - b)
  | _, _ => saturate (t.wall - u.wall)

/-- `(Duration).Milliseconds()`: integer division by `1e6`, truncating toward
zero. -/
def Milliseconds (d : Int) : Int := Int.tdiv d 1000000

/-- The conversion `int(x)` of an `int64`, on a platform whose `int` has 64
bits: the value wrapped into the signed 64-bit range. -/
def toInt (x : Int) : Int := (x + 2 ^ 63) % 2 ^ 64 - 2 ^ 63

/-! ## Trace context -/

/-- A `trace.SpanContext`: the 16-byte trace ID and the 8-byte span ID. -/
structure SpanContext where
  traceID : List Byte
  spanID : List Byte
deriving DecidableEq, Repr

/-- The zero `SpanContext` of the no-op span. -/
def SpanContext.zero : SpanContext :=
  { traceID := List.replicate 16 0, spanID := List.replicate 8 0 }

/-- `trace.SpanFromContext(ctx)`: the span stored in the context, or the
no-op span, whose `SpanContext()` is the zero value. -/
def SpanFromContext (ctx : Option SpanContext) : SpanContext :=
  match ctx with
  | some sc => sc
  | none => SpanContext.zero

/-- The lower-case hexadecimal digit of a value below 16. -/
def hexDigit (n : Nat) : Char := "0123456789abcdef".toList.getD n '0'

/-- `hex.EncodeToString`: two lower-case digits per byte. -/
def hexEncode (b : List Byte) : String :=
  String.mk (b.flatMap (fun x => [hexDigit (x.val / 16), hexDigit (x.val % 16)]))

/-- `(TraceID).String()`: the hex form of the 16 bytes. -/
def TraceID.String (id : List Byte) : String := hexEncode id

/-- `(SpanID).String()`: the hex form of the 8 bytes. -/
def SpanID.String (id : List Byte) : String := hexEncode id

/-! ## Hostname cache -/

/-- The package variables `resolveHostOnce` and `cachedHostname`, with a
count of the `os.Hostname` calls made so far. -/
structure HostState where
  done : Bool
  cachedHostname : String
  lookups : Nat
deriving DecidableEq, Repr

/-- The state at process start: the `sync.Once` not yet run, the cache empty. -/
def HostState.init : HostState := { done := false, cachedHostname := "", lookups := 0 }

/-- What `os.Hostname()` returns when called: `(host, err)`. -/
structure Lookup where
  host : String
  err : Option String
deriving DecidableEq, Repr

/-- `getHostname()`: `resolveHostOnce.Do` runs the resolution only when it has
not run before; the cached value is returned. `now` is what `os.Hostname`
answers at the time of the call. -/
def getHostname (now : Lookup) (s : HostState) : String × HostState :=
  let s' :=
    if s.done then s
    else
      let host := if now.err ≠ none ∨ now.host = "" then "unknown" else now.host
      { done := true, cachedHostname := host, lookups := s.lookups + 1 }
  (s'.cachedHostname, s')

/-- A run of successive `getHostname` calls, one per element of `nows`: the
values returned, in order, and the final state. -/
def getHostnameRun : List Lookup → HostState → List String × HostState
  | [], s => ([], s)
  | now :: rest, s =>
    let r := getHostname now s
    let rs := getHostnameRun rest r.2
    (r.1 :: rs.1, rs.2)

/-! ## The gin response writer and the capturing wrapper -/

/-- An `http.Header`: header names with their ordered values. -/
abbrev Header := List (String × List String)

/-- The result `(n, err)` a write on the underlying connection returns. -/
structure WriteResult where
  n : Int
  err : Option String
deriving DecidableEq, Repr

/-- The real writer, gin's `responseWriter`: the status, the size counter
(`-1` while nothing is written), the headers, and `out`, the bytes handed to
it for the client, in order. -/
structure GinWriter where
  status : Int
  size : Int
  header : Header
  out : List Byte
deriving DecidableEq, Repr

/-- The writer gin gives a fresh request: status 200, nothing written. -/
def GinWriter.fresh : GinWriter := { status := 200, size := -1, header := [], out := [] }

/-- `Written()`: whether the size counter has left `noWritten`. -/
def GinWriter.Written (w : GinWriter) : Bool := w.size != -1

/-- `WriteHeaderNow()`: marks the header as written. -/
def GinWriter.WriteHeaderNow (w : GinWriter) : GinWriter :=
  if w.Written then w else { w with size := 0 }

/-- `WriteHeader(code)`: records a positive, different code unless the header
is already written. -/
def GinWriter.WriteHeader (w : GinWriter) (code : Int) : GinWriter :=
  if 0 < code ∧ w.status ≠ code then
    if w.Written then w else { w with status := code }
  else w

/-- `Write(data)`: the header is flushed, `data` goes to the connection, whose
result `res` is added to the size and returned. -/
def GinWriter.Write (w : GinWriter) (data : List Byte) (res : WriteResult) :
    WriteResult × GinWriter :=
  let w1 := w.WriteHeaderNow
  (res, { w1 with out := w1.out ++ data, size := w1.size + res.n })

/-- `WriteString(s)`: as `Write`, on the bytes of the string. -/
def GinWriter.WriteString (w : GinWriter) (s : List Byte) (res : WriteResult) :
    WriteResult × GinWriter :=
  let w1 := w.WriteHeaderNow
  (res, { w1 with out := w1.out ++ s, size := w1.size + res.n })

/-- The `ResponseWriter` of the source: the embedded `gin.ResponseWriter`
(the field `inner`; it is the real writer of the request) and the capture
buffer `body`. -/
structure ResponseWriter where
  inner : GinWriter
  body : Buffer
deriving DecidableEq, Repr

/-- `(*ResponseWriter).Write`: `w.body.Write(b)`, then the result of the
embedded writer's `Write(b)`. -/
def ResponseWriter.Write (w : ResponseWriter) (b : List Byte) (res : WriteResult) :
    WriteResult × ResponseWriter :=
  let body := w.body.Write b
  let r := w.inner.Write b res
  (r.1, { inner := r.2, body := body })

/-- `WriteString` on the wrapper: not declared by the source, so the method
of the embedded `gin.ResponseWriter` is promoted and runs on the real writer
alone. -/
def ResponseWriter.WriteString (w : ResponseWriter) (s : List Byte) (res : WriteResult) :
    WriteResult × ResponseWriter :=
  let r := w.inner.WriteString s res
  (r.1, { w with inner := r.2 })

/-- `WriteHeader` on the wrapper: promoted from the embedded writer. -/
def ResponseWriter.WriteHeader (w : ResponseWriter) (code : Int) : ResponseWriter :=
  { w with inner := w.inner.WriteHeader code }

/-- `Status()` on the wrapper: promoted from the embedded writer. -/
def ResponseWriter.Status (w : ResponseWriter) : Int := w.inner.status

/-! ## Requests and the downstream chain -/

/-- The parts of `http.Request` the source reads; `Context` is the span stored
in `Request.Context()`, if any. -/
structure Request where
  Method : String
  RequestURI : String
  Header : Header
  Body : Option Body
  Context : Option SpanContext
deriving DecidableEq, Repr

/-- A `gin.Context` whose `Writer` is a `W`. -/
structure GinContext (W : Type) where
  Request : Request
  Writer : W

/-- One step of the downstream handler chain on the context it is given.
Each write carries the result the connection returns for it. -/
inductive Action where
  | Write (b : List Byte) (res : WriteResult)
  | WriteString (s : List Byte) (res : WriteResult)
  | WriteHeader (code : Int)
  | ReadBody (n : Nat)
deriving DecidableEq, Repr

/-- The effect of one downstream step; calls on `c.Writer` dispatch to the
wrapper, `ReadBody n` is a `c.Request.Body.Read` into `n` bytes. -/
def Action.run (c : GinContext ResponseWriter) : Action → GinContext ResponseWriter
  | Action.Write b res => { c with Writer := (c.Writer.Write b res).2 }
  | Action.WriteString s res => { c with Writer := (c.Writer.WriteString s res).2 }
  | Action.WriteHeader code => { c with Writer := c.Writer.WriteHeader code }
  | Action.ReadBody n =>
    match c.Request.Body with
    | some body => { c with Request := { c.Request with Body := some (body.Read n).2 } }
    | none => c

/-- `c.Next()`: the downstream chain, as the steps it performs in order. -/
def Next (steps : List Action) (c : GinContext ResponseWriter) : GinContext ResponseWriter :=
  steps.foldl Action.run c

/-! ## Records -/

/-- The `TransactionData` record. -/
structure TransactionData where
  Status : Int
  Start : Time
  End : Time
  RequestBody : List Byte
  RequestHeader : Header
  ResponseBody : List Byte
  ResponseHeader : Header
  TraceID : String
  SpanID : String
  Duration : Int
  RequestMethod : String
  Hostname : String
  LoggingTime : Time
  Level : String
  Application : String
  ApiUrl : String
  Size : Int
deriving DecidableEq, Repr

/-- The `DebugData` record. -/
structure DebugData where
  TraceID : String
  Level : String
  Line : Int
  Filename : String
  Hostname : String
  LoggingTime : Time
  Status : String
  Message : String
  Application : String
deriving DecidableEq, Repr

/-! ## `LoggingMiddleware` -/

/-- What the handler holds when it calls `c.Next()`: its local variables and
the context the downstream chain receives. -/
structure Pending where
  traceID : String
  spanID : String
  startTime : Time
  requestBody : List Byte
  c : GinContext ResponseWriter

/-- The handler up to `c.Next()`: the trace identifiers, the start time, the
request body read with its error dropped and replaced by a fresh buffer over
the bytes read, and the wrapper installed as `c.Writer`. -/
def beforeNext (start : ClockReading) (c : GinContext GinWriter) : Pending :=
  let span := SpanFromContext c.Request.Context
  let traceID := TraceID.String span.traceID
  let spanID := SpanID.String span.spanID
  let startTime := (timeNow start).UTC
  let read : List Byte × Request :=
    match c.Request.Body with
    | some body =>
      let requestBody := (ReadAll body).1
      (requestBody, { c.Request with Body := some (Body.buffer (Buffer.new requestBody)) })
    | none => ([], c.Request)
  let writer : ResponseWriter := { body := Buffer.new [], inner := c.Writer }
  { traceID := traceID, spanID := spanID, startTime := startTime,
    requestBody := read.1, c := { Request := read.2, Writer := writer } }

/-- The handler after `c.Next()`: the end time and the record it builds, with
the hostname cache after `getHostname()`. -/
def afterNext (componentName : String) (stop : ClockReading) (host : Lookup)
    (hs : HostState) (p : Pending) (c : GinContext ResponseWriter) :
    TransactionData × HostState :=
  let endTime := (timeNow stop).UTC
  let writer := c.Writer
  let h := getHostname host hs
  ({ Status := c.Writer.Status,
     Start := p.startTime,
     End := endTime,
     RequestBody := p.requestBody,
     RequestHeader := c.Request.Header,
     ResponseBody := writer.body.String,
     ResponseHeader := writer.inner.header,
     TraceID := p.traceID,
     SpanID := p.spanID,
     Duration := toInt (Milliseconds (endTime.Sub p.startTime)),
     RequestMethod := c.Request.Method,
     Hostname := h.1,
     LoggingTime := endTime,
     Level := "INFO",
     Application := componentName,
     ApiUrl := c.Request.RequestURI,
     Size := writer.body.Len }, h.2)

/-- What one run of the handler leaves behind: the record passed to
`LogTransaction`, the real writer with the bytes it was handed, the context
the downstream chain received, and the hostname cache. -/
structure Outcome where
  record : TransactionData
  real : GinWriter
  downstream : GinContext ResponseWriter
  host : HostState

/-- The handler returned by `LoggingMiddleware(componentName)`, run on the
context `c`: `start` and `stop` are the clock readings of the two
`time.Now()` calls, `steps` what the downstream chain does, `host` what
`os.Hostname` answers, `hs` the hostname cache before the call. -/
def LoggingMiddleware (componentName : String) (start stop : ClockReading)
    (host : Lookup) (hs : HostState) (steps : List Action)
    (c : GinContext GinWriter) : Outcome :=
  let p := beforeNext start c
  let c' := Next steps p.c
  let r := afterNext componentName stop host hs p c'
  { record := r.1, real := c'.Writer.inner, downstream := p.c, host := r.2 }

/-! ## `LogDebugMessage` -/

/-- One frame of the call stack: the source file and line of the call it is
executing. -/
structure Frame where
  file : String
  line : Int
deriving DecidableEq, Repr

/-- `runtime.Caller(skip)` seen from a function whose own frame is
`stack[0]`: the file and line of the frame `skip` levels up, and whether
there is one. -/
def runtimeCaller (stack : List Frame) (skip : Nat) : String × Int × Bool :=
  match stack.get? skip with
  | some f => (f.file, f.line, true)
  | none => ("", 0, false)

/-- `filepath.Base` with the separator `/`: the last element of the path,
after trailing separators are removed; `.` for the empty path and `/` for a
path of separators only. -/
def filepathBase (path : String) : String :=
  if path = "" then "."
  else
    let p := (path.toList.reverse.dropWhile (fun c => c = '/')).reverse
    let p := (p.reverse.takeWhile (fun c => c ≠ '/')).reverse
    if p = [] then "/" else String.mk p

/-- `LogDebugMessage(ctx, componentName, message, status, level)`: `stack` is
the call stack with the frame of `LogDebugMessage` itself at index 0; the
record is the one passed to `LogDebug`. -/
def LogDebugMessage (ctx : Option SpanContext) (componentName message status level : String)
    (stack : List Frame) (now : ClockReading) (host : Lookup) (hs : HostState) :
    DebugData × HostState :=
  let span := SpanFromContext ctx
  let traceID := TraceID.String span.traceID
  let caller := runtimeCaller stack 2
  let filename := filepathBase caller.1
  let h := getHostname host hs
  ({ TraceID := traceID,
     Level := level,
     Line := caller.2.1,
     Filename := filename,
     Hostname := h.1,
     LoggingTime := (timeNow now).UTC,
     Status := status,
     Message := message,
     Application := componentName }, h.2)

/-! ## A process run -/

/-- One logging call of a process, with everything it depends on: a request
served by the handler of `LoggingMiddleware`, or a call of `LogDebugMessage`.
The field `host` is what `os.Hostname` would answer at the time of the call. -/
inductive Call where
  | request (componentName : String) (start stop : ClockReading) (host : Lookup)
      (steps : List Action) (c : GinContext GinWriter)
  | debug (ctx : Option SpanContext) (componentName message status level : String)
      (stack : List Frame) (now : ClockReading) (host : Lookup)

/-- What `os.Hostname` would answer at the time of a call. -/
def Call.lookup : Call → Lookup
  | Call.request _ _ _ host _ _ => host
  | Call.debug _ _ _ _ _ _ _ host => host

/-- One call on the hostname cache `hs`: the `Hostname` field of the record
the call emits, and the cache it leaves. -/
def Call.run (hs : HostState) : Call → String × HostState
  | Call.request componentName start stop host steps c =>
    ((LoggingMiddleware componentName start stop host hs steps c).record.Hostname,
     (LoggingMiddleware componentName start stop host hs steps c).host)
  | Call.debug ctx componentName message status level stack now host =>
    ((LogDebugMessage ctx componentName message status level stack now host hs).1.Hostname,
     (LogDebugMessage ctx componentName message status level stack now host hs).2)

/-- The calls of a process in order, each on the cache the previous one
left: the `Hostname` of every record emitted, and the final cache. -/
def runProcess : List Call → HostState → List String × HostState
  | [], hs => ([], hs)
  | call :: rest, hs =>
    ((call.run hs).1 :: (runProcess rest (call.run hs).2).1,
     (runProcess rest (call.run hs).2).2)

/-! ## Measures of a run, used by the statements -/

/-- The bytes a downstream chain hands to the writer through `Write`. -/
def Action.captured : List Action → List Byte
  | [] => []
  | Action.Write b _ :: rest => b ++ Action.captured rest
  | _ :: rest => Action.captured rest

/-- The bytes a downstream chain hands to the writer through `Write` or
`WriteString`. -/
def Action.handed : List Action → List Byte
  | [] => []
  | Action.Write b _ :: rest => b ++ Action.handed rest
  | Action.WriteString s _ :: rest => s ++ Action.handed rest
  | _ :: rest => Action.handed rest

/-- All the bytes the reads of a stream store, up to and including the read
that returns the error. -/
def Stream.data : Stream → List Byte
  | Stream.last d _ => d
  | Stream.more d rest => d ++ rest.data

/-- The error that ends a stream. -/
def Stream.err : Stream → ReadErr
  | Stream.last _ e => e
  | Stream.more _ rest => rest.err

/-! ## Example inputs -/

/-- A clock reading in November 2023. -/
def clockStart : ClockReading :=
  { wall := 1700000000000000000, mono := 9000000000, wall_lt := by decide }

/-- The reading 5 ms after `clockStart` on both clocks. -/
def clockFiveLater : ClockReading :=
  { wall := 1700000000005000000, mono := 9005000000, wall_lt := by decide }

/-- A reading taken 5 ms after `clockStart` on the monotonic clock, the wall
clock having been set back by 2 s in between. -/
def clockSetBack : ClockReading :=
  { wall := 1699999998005000000, mono := 9005000000, wall_lt := by decide }

/-- A bodyless `GET /health` carrying no span. -/
def healthRequest : Request :=
  { Method := "GET", RequestURI := "/health", Header := [], Body := none, Context := none }

/-- The 11 bytes of the JSON text with the one member `"ok": true`. -/
def okBody : List Byte := ascii "\x7b\"ok\":true\x7d"

/-- A request body whose first read stores two bytes and whose second read
fails. -/
def brokenBody : Body :=
  Body.stream (Stream.more [104, 105] (Stream.last [] (ReadErr.other "unexpected EOF")))

/-- A request body that reads as three bytes, then `io.EOF`. -/
def shortBody : Body :=
  Body.stream (Stream.more [1, 2] (Stream.last [3] ReadErr.EOF))

/-- A call stack in which a function in `auth.go` calls `LogDebugMessage` at
line 42 and was itself called from line 10 of `main.go`. -/
def directCallStack : List Frame :=
  [{ file := "/src/logger/logger.go", line := 67 },
   { file := "/app/svc/auth.go", line := 42 },
   { file := "/app/main.go", line := 10 }]

/-- A lookup that succeeds with the name `web-1`. -/
def lookupOk : Lookup := { host := "web-1", err := none }

/-! ## Lemmas: time arithmetic -/

theorem toInt_of_range (x : Int) (h1 : -(2 ^ 63) ≤ x) (h2 : x < 2 ^ 63) : toInt x = x := by
  unfold toInt
  omega

theorem saturate_of_range (d : Int) (h1 : -(2 ^ 63) < d) (h2 : d < 2 ^ 63) : saturate d = d := by
  unfold saturate minDuration maxDuration
  split_ifs <;> omega

theorem Milliseconds_eq (d : Int) :
    Milliseconds d = if 0 ≤ d then d / 1000000 else -((-d) / 1000000) := by
  unfold Milliseconds
  split_ifs with h
  · exact Int.tdiv_eq_ediv h (by decide)
  · have h2 : d = -(-d) := by omega
    conv_lhs => rw [h2]
    rw [Int.neg_tdiv, Int.tdiv_eq_ediv (by omega) (by decide)]

theorem Milliseconds_range (d : Int) (h1 : -(2 ^ 63) < d) (h2 : d < 2 ^ 63) :
    -(2 ^ 63) ≤ Milliseconds d ∧ Milliseconds d < 2 ^ 63 := by
  rw [Milliseconds_eq]
  split_ifs <;> omega

theorem Milliseconds_nonneg_iff (d : Int) : 0 ≤ Milliseconds d ↔ -1000000 < d := by
  rw [Milliseconds_eq]
  split_ifs <;> omega


/-! ## Lemmas: the downstream chain -/

theorem WriteHeaderNow_out (w : GinWriter) : w.WriteHeaderNow.out = w.out := by
  unfold GinWriter.WriteHeaderNow
  split_ifs <;> rfl

theorem WriteHeader_out (w : GinWriter) (code : Int) : (w.WriteHeader code).out = w.out := by
  unfold GinWriter.WriteHeader
  split_ifs <;> rfl

theorem Next_body (steps : List Action) (c : GinContext ResponseWriter) :
    (Next steps c).Writer.body
      = { buf := c.Writer.body.buf ++ Action.captured steps, off := c.Writer.body.off } := by
  induction steps generalizing c with
  | nil => simp [Next, Action.captured]
  | cons a rest ih =>
    have hstep : Next (a :: rest) c = Next rest (a.run c) := rfl
    rw [hstep, ih]
    cases a with
    | Write b res =>
      simp [Action.run, ResponseWriter.Write, Buffer.Write, Action.captured]
    | WriteString s res =>
      simp [Action.run, ResponseWriter.WriteString, Action.captured]
    | WriteHeader code =>
      simp [Action.run, ResponseWriter.WriteHeader, Action.captured]
    | ReadBody n =>
      simp only [Action.run, Action.captured]
      cases c.Request.Body <;> rfl

theorem Next_out (steps : List Action) (c : GinContext ResponseWriter) :
    (Next steps c).Writer.inner.out = c.Writer.inner.out ++ Action.handed steps := by
  induction steps generalizing c with
  | nil => simp [Next, Action.handed]
  | cons a rest ih =>
    have hstep : Next (a :: rest) c = Next rest (a.run c) := rfl
    rw [hstep, ih]
    cases a with
    | Write b res =>
      simp [Action.run, ResponseWriter.Write, GinWriter.Write, Action.handed, WriteHeaderNow_out]
    | WriteString s res =>
      simp [Action.run, ResponseWriter.WriteString, GinWriter.WriteString, Action.handed,
        WriteHeaderNow_out]
    | WriteHeader code =>
      simp [Action.run, ResponseWriter.WriteHeader, Action.handed, WriteHeader_out]
    | ReadBody n =>
      simp only [Action.run, Action.handed]
      cases c.Request.Body <;> simp

theorem Next_request (steps : List Action) (c : GinContext ResponseWriter) :
    (Next steps c).Request.Method = c.Request.Method
      ∧ (Next steps c).Request.RequestURI = c.Request.RequestURI
      ∧ (Next steps c).Request.Header = c.Request.Header := by
  induction steps generalizing c with
  | nil => simp [Next]
  | cons a rest ih =>
    have hstep : Next (a :: rest) c = Next rest (a.run c) := rfl
    rw [hstep]
    have h := ih (a.run c)
    cases a with
    | Write b res => exact h
    | WriteString s res => exact h
    | WriteHeader code => exact h
    | ReadBody n =>
      simp only [Action.run] at h ⊢
      cases hb : c.Request.Body <;> simp only [hb] at h ⊢ <;> exact h

/-! ## Lemmas: `io.ReadAll` -/

theorem ReadAllLoop_stream (s : Stream) (k : Nat) (acc : List Byte) (hk : s.reads ≤ k) :
    ReadAllLoop k (Body.stream s) acc
      = (acc ++ s.data, if s.err = ReadErr.EOF then none else some s.err) := by
  induction s generalizing k acc with
  | last d e =>
    cases k with
    | zero => simp [Stream.reads] at hk
    | succ k => simp [ReadAllLoop, Body.Read, Stream.data, Stream.err]
  | more d rest ih =>
    cases k with
    | zero => simp [Stream.reads] at hk
    | succ k =>
      simp only [Stream.reads, Nat.add_le_add_iff_right] at hk
      simp only [ReadAllLoop, Body.Read, Stream.data, Stream.err]
      rw [ih k (acc ++ d) hk, List.append_assoc]

theorem take_append_drop_min (n : Nat) (l : List Byte) :
    l.take n ++ l.drop (min n l.length) = l := by
  by_cases hm : n ≤ l.length
  · rw [min_eq_left hm, List.take_append_drop]
  · have h1 : l.length ≤ n := by omega
    rw [min_eq_right h1, List.take_of_length_le h1, List.drop_eq_nil_of_le (le_refl _)]
    simp

theorem ReadAllLoop_buffer (k : Nat) (b : Buffer) (acc : List Byte) (hk : b.Len < k) :
    ReadAllLoop k (Body.buffer b) acc = (acc ++ b.String, none) := by
  induction k generalizing b acc with
  | zero => omega
  | succ k ih =>
    unfold ReadAllLoop
    by_cases he : b.buf.length ≤ b.off
    · simp [Body.Read, Buffer.Read, he, readSize, Buffer.String, List.drop_eq_nil_of_le he]
    · have hlen : ((b.buf.drop b.off).take readSize).length
          = min readSize (b.buf.drop b.off).length := by simp
      have hdrop : (b.buf.drop b.off).length = b.buf.length - b.off := by simp
      simp only [Body.Read, Buffer.Read, he, if_false]
      rw [ih]
      · simp only [Buffer.String, List.append_assoc]
        congr 2
        rw [hlen, ← List.drop_drop]
        exact take_append_drop_min readSize (b.buf.drop b.off)
      · simp only [Buffer.Len] at hk ⊢
        rw [hlen, hdrop]
        have : 0 < readSize := by decide
        omega

/-- More fuel than `r.reads` never changes what the loop of `io.ReadAll`
returns: within `r.reads` calls the body has returned an error. -/
theorem ReadAllLoop_fuel (r : Body) (k : Nat) (acc : List Byte) (hk : r.reads ≤ k) :
    ReadAllLoop k r acc = ReadAllLoop r.reads r acc := by
  cases r with
  | stream s =>
    rw [ReadAllLoop_stream s k acc hk]
    exact (ReadAllLoop_stream s s.reads acc (le_refl _)).symm
  | buffer b =>
    have h1 : b.Len < k := by
      simp only [Body.reads] at hk
      omega
    rw [ReadAllLoop_buffer k b acc h1]
    exact (ReadAllLoop_buffer (b.Len + 1) b acc (Nat.lt_succ_self _)).symm

/-! ## The handler: general facts -/

theorem record_ResponseBody (componentName : String) (start stop : ClockReading)
    (host : Lookup) (hs : HostState) (steps : List Action) (c : GinContext GinWriter) :
    (LoggingMiddleware componentName start stop host hs steps c).record.ResponseBody
      = Action.captured steps := by
  show (Next steps (beforeNext start c).c).Writer.body.String = _
  rw [Next_body]
  simp [Buffer.String, beforeNext, Buffer.new]

theorem real_out (componentName : String) (start stop : ClockReading)
    (host : Lookup) (hs : HostState) (steps : List Action) (c : GinContext GinWriter) :
    (LoggingMiddleware componentName start stop host hs steps c).real.out
      = c.Writer.out ++ Action.handed steps := by
  show (Next steps (beforeNext start c).c).Writer.inner.out = _
  rw [Next_out]
  simp [beforeNext]

theorem captured_eq_handed (steps : List Action)
    (h : ∀ a ∈ steps, ∀ s res, a ≠ Action.WriteString s res) :
    Action.captured steps = Action.handed steps := by
  induction steps with
  | nil => rfl
  | cons a rest ih =>
    have hrest := ih (fun a ha => h a (List.mem_cons_of_mem _ ha))
    cases a with
    | Write b res => simp [Action.captured, Action.handed, hrest]
    | WriteString s res => exact absurd rfl (h _ (List.mem_cons_self _ _) s res)
    | WriteHeader code => simp [Action.captured, Action.handed, hrest]
    | ReadBody n => simp [Action.captured, Action.handed, hrest]

/-- When the downstream chain writes through `Write` only, the logged
response body is exactly what the real writer was handed after the handler
started. -/
theorem ResponseBody_eq_out_of_Write_only (componentName : String) (start stop : ClockReading)
    (host : Lookup) (hs : HostState) (steps : List Action) (c : GinContext GinWriter)
    (h : ∀ a ∈ steps, ∀ s res, a ≠ Action.WriteString s res) :
    (LoggingMiddleware componentName start stop host hs steps c).real.out
      = c.Writer.out
        ++ (LoggingMiddleware componentName start stop host hs steps c).record.ResponseBody := by
  rw [real_out, record_ResponseBody, captured_eq_handed steps h]

/-! ## Claims -/

/-- C1, evaluated on the code: a downstream handler that sends `hi` through
`c.Writer.WriteString` delivers those two bytes to the real writer, while the
logged `ResponseBody` stays empty and `Size` stays 0. -/
theorem ResponseBody_misses_WriteString :
    (LoggingMiddleware "svc" clockStart clockFiveLater lookupOk HostState.init
        [Action.WriteString (ascii "hi") { n := 2, err := none }]
        { Request := healthRequest, Writer := GinWriter.fresh }).real.out = ascii "hi"
      ∧ (LoggingMiddleware "svc" clockStart clockFiveLater lookupOk HostState.init
        [Action.WriteString (ascii "hi") { n := 2, err := none }]
        { Request := healthRequest, Writer := GinWriter.fresh }).record.ResponseBody = []
      ∧ (LoggingMiddleware "svc" clockStart clockFiveLater lookupOk HostState.init
        [Action.WriteString (ascii "hi") { n := 2, err := none }]
        { Request := healthRequest, Writer := GinWriter.fresh }).record.Size = 0 := by
  decide

/-- C2: when the request body is non-nil and `io.ReadAll` reads it to
completion as `B`, the context handed to the downstream chain holds as `Body`
a fresh buffer over `B` with nothing consumed, reading that body to its end
gives exactly `B` and then end-of-stream, and the record's `RequestBody` is
`B`, whatever the downstream chain does. -/
theorem RequestBody_restored (componentName : String) (start stop : ClockReading)
    (host : Lookup) (hs : HostState) (steps : List Action) (c : GinContext GinWriter)
    (body : Body) (B : List Byte)
    (hbody : c.Request.Body = some body) (hread : ReadAll body = (B, none)) :
    (LoggingMiddleware componentName start stop host hs steps c).downstream.Request.Body
        = some (Body.buffer { buf := B, off := 0 })
      ∧ ReadAll (Body.buffer { buf := B, off := 0 }) = (B, none)
      ∧ (∀ n, 0 < n →
          (Body.Read (Body.buffer { buf := B, off := B.length }) n).1 = ([], some ReadErr.EOF))
      ∧ (LoggingMiddleware componentName start stop host hs steps c).record.RequestBody = B := by
  refine ⟨?_, ?_, ?_, ?_⟩
  · simp [LoggingMiddleware, beforeNext, hbody, hread, Buffer.new]
  · have h := ReadAllLoop_buffer (B.length + 1) { buf := B, off := 0 } [] (by simp [Buffer.Len])
    simpa [ReadAll, Body.reads, Buffer.Len, Buffer.String] using h
  · intro n hn
    have hn0 : n ≠ 0 := by omega
    simp [Body.Read, Buffer.Read, hn0]
  · simp [LoggingMiddleware, afterNext, beforeNext, hbody, hread]

/-- Witness of C2 on a body read in two chunks. -/
theorem RequestBody_restored_witness :
    (LoggingMiddleware "svc" clockStart clockFiveLater lookupOk HostState.init
        [Action.ReadBody 2]
        { Request := { healthRequest with Body := some shortBody },
          Writer := GinWriter.fresh }).downstream.Request.Body
        = some (Body.buffer { buf := [1, 2, 3], off := 0 })
      ∧ ReadAll (Body.buffer { buf := [1, 2, 3], off := 0 }) = ([1, 2, 3], none)
      ∧ (∀ n, 0 < n →
          (Body.Read (Body.buffer { buf := [1, 2, 3], off := [1, 2, 3].length }) n).1
            = ([], some ReadErr.EOF))
      ∧ (LoggingMiddleware "svc" clockStart clockFiveLater lookupOk HostState.init
        [Action.ReadBody 2]
        { Request := { healthRequest with Body := some shortBody },
          Writer := GinWriter.fresh }).record.RequestBody = [1, 2, 3] :=
  RequestBody_restored "svc" clockStart clockFiveLater lookupOk HostState.init
    [Action.ReadBody 2]
    { Request := { healthRequest with Body := some shortBody }, Writer := GinWriter.fresh }
    shortBody [1, 2, 3] rfl (by decide)

/-- C3 fails as stated: on a body whose first read stores `hi` and whose
second read fails, `io.ReadAll` returns an error and the record's
`RequestBody` is `hi`, not the empty string. -/
theorem RequestBody_not_empty_on_read_error :
    (ReadAll brokenBody).2 = some (ReadErr.other "unexpected EOF")
      ∧ (LoggingMiddleware "svc" clockStart clockFiveLater lookupOk HostState.init []
          { Request := { healthRequest with Body := some brokenBody },
            Writer := GinWriter.fresh }).record.RequestBody ≠ [] := by
  decide

/-- C3, amended: when the reads of the request body end in an error other
than `io.EOF`, the handler still runs the downstream chain (the real writer
ends with every byte the chain handed it), and it uses the bytes read before
the failure: they are the record's `RequestBody` and the contents of the
fresh body the downstream chain receives. -/
theorem RequestBody_on_read_error (componentName : String) (start stop : ClockReading)
    (host : Lookup) (hs : HostState) (steps : List Action) (c : GinContext GinWriter)
    (s : Stream) (hbody : c.Request.Body = some (Body.stream s))
    (herr : s.err ≠ ReadErr.EOF) :
    (ReadAll (Body.stream s)).2 = some s.err
      ∧ (LoggingMiddleware componentName start stop host hs steps c).record.RequestBody
          = s.data
      ∧ (LoggingMiddleware componentName start stop host hs steps c).downstream.Request.Body
          = some (Body.buffer { buf := s.data, off := 0 })
      ∧ (LoggingMiddleware componentName start stop host hs steps c).real.out
          = c.Writer.out ++ Action.handed steps := by
  have hread : ReadAll (Body.stream s) = (s.data, some s.err) := by
    have h := ReadAllLoop_stream s s.reads [] (le_refl _)
    simpa [ReadAll, Body.reads, herr] using h
  refine ⟨by rw [hread], ?_, ?_, real_out _ _ _ _ _ _ _⟩
  · simp [LoggingMiddleware, afterNext, beforeNext, hbody, hread]
  · simp [LoggingMiddleware, beforeNext, hbody, hread, Buffer.new]

/-- Witness of the amended C3 on the body that fails after `hi`. -/
theorem RequestBody_on_read_error_witness :
    (ReadAll brokenBody).2 = some (ReadErr.other "unexpected EOF")
      ∧ (LoggingMiddleware "svc" clockStart clockFiveLater lookupOk HostState.init
          [Action.Write okBody { n := 11, err := none }]
          { Request := { healthRequest with Body := some brokenBody },
            Writer := GinWriter.fresh }).record.RequestBody = [104, 105]
      ∧ (LoggingMiddleware "svc" clockStart clockFiveLater lookupOk HostState.init
          [Action.Write okBody { n := 11, err := none }]
          { Request := { healthRequest with Body := some brokenBody },
            Writer := GinWriter.fresh }).downstream.Request.Body
          = some (Body.buffer { buf := [104, 105], off := 0 })
      ∧ (LoggingMiddleware "svc" clockStart clockFiveLater lookupOk HostState.init
          [Action.Write okBody { n := 11, err := none }]
          { Request := { healthRequest with Body := some brokenBody },
            Writer := GinWriter.fresh }).real.out
          = [] ++ Action.handed [Action.Write okBody { n := 11, err := none }] :=
  RequestBody_on_read_error "svc" clockStart clockFiveLater lookupOk HostState.init
    [Action.Write okBody { n := 11, err := none }]
    { Request := { healthRequest with Body := some brokenBody }, Writer := GinWriter.fresh }
    (Stream.more [104, 105] (Stream.last [] (ReadErr.other "unexpected EOF")))
    rfl (by decide)

/-- C4: the record's `Duration` is the difference of its `End` and `Start`
instants in nanoseconds, divided by 1,000,000 with the fractional part
discarded (division truncating toward zero); `Start` and `End` are the two
clock readings without their monotonic part. -/
theorem Duration_whole_milliseconds (componentName : String) (start stop : ClockReading)
    (host : Lookup) (hs : HostState) (steps : List Action) (c : GinContext GinWriter) :
    (LoggingMiddleware componentName start stop host hs steps c).record.Duration
        = Int.tdiv
            ((LoggingMiddleware componentName start stop host hs steps c).record.End.wall
              - (LoggingMiddleware componentName start stop host hs steps c).record.Start.wall)
            1000000
      ∧ (LoggingMiddleware componentName start stop host hs steps c).record.Start
          = { wall := start.wall, mono := none }
      ∧ (LoggingMiddleware componentName start stop host hs steps c).record.End
          = { wall := stop.wall, mono := none } := by
  refine ⟨?_, rfl, rfl⟩
  have h1 := start.wall_lt
  have h2 := stop.wall_lt
  show toInt (Milliseconds (saturate ((stop.wall : Int) - start.wall))) = _
  rw [saturate_of_range _ (by omega) (by omega)]
  have hr := Milliseconds_range ((stop.wall : Int) - start.wall) (by omega) (by omega)
  rw [toInt_of_range _ hr.1 hr.2]
  rfl

/-- C5 fails as stated: when the wall clock is set back by 2 s between the
two readings, although the monotonic clock advanced by 5 ms, the record's
`Duration` is -1995. -/
theorem Duration_negative_when_clock_set_back :
    clockStart.mono < clockSetBack.mono
      ∧ (LoggingMiddleware "svc" clockStart clockSetBack lookupOk HostState.init []
          { Request := healthRequest, Writer := GinWriter.fresh }).record.Duration = -1995
      ∧ ¬ 0 ≤ (LoggingMiddleware "svc" clockStart clockSetBack lookupOk HostState.init []
          { Request := healthRequest, Writer := GinWriter.fresh }).record.Duration := by
  decide

/-- C5, amended: the record's `Duration` is non-negative exactly when the
`End` wall-clock reading is later than 1 ms before the `Start` reading, which
includes every run in which the wall clock did not go back between the two
readings. -/
theorem Duration_nonneg_iff (componentName : String) (start stop : ClockReading)
    (host : Lookup) (hs : HostState) (steps : List Action) (c : GinContext GinWriter) :
    0 ≤ (LoggingMiddleware componentName start stop host hs steps c).record.Duration
      ↔ (start.wall : Int) - 1000000 < stop.wall := by
  have h1 := start.wall_lt
  have h2 := stop.wall_lt
  have hd : (LoggingMiddleware componentName start stop host hs steps c).record.Duration
      = Milliseconds ((stop.wall : Int) - start.wall) := by
    show toInt (Milliseconds (saturate ((stop.wall : Int) - start.wall))) = _
    rw [saturate_of_range _ (by omega) (by omega)]
    have hr := Milliseconds_range ((stop.wall : Int) - start.wall) (by omega) (by omega)
    rw [toInt_of_range _ hr.1 hr.2]
  rw [hd, Milliseconds_nonneg_iff]
  constructor <;> intro h <;> omega

theorem getHostname_done (now : Lookup) (s : HostState) (h : s.done = true) :
    getHostname now s = (s.cachedHostname, s) := by
  simp [getHostname, h]

theorem getHostnameRun_done (nows : List Lookup) (s : HostState) (h : s.done = true) :
    getHostnameRun nows s = (List.replicate nows.length s.cachedHostname, s) := by
  induction nows with
  | nil => rfl
  | cons now rest ih =>
    simp [getHostnameRun, getHostname_done now s h, ih, List.replicate_succ]

/-- C6: on a call that finds the `sync.Once` not yet run, `getHostname`
returns the literal `unknown` if the lookup returns an error or the empty
string, and otherwise exactly the hostname the lookup returned. -/
theorem getHostname_first_call (now : Lookup) (s : HostState) (h : s.done = false) :
    ((now.err ≠ none ∨ now.host = "") → (getHostname now s).1 = "unknown")
      ∧ ((now.err = none ∧ now.host ≠ "") → (getHostname now s).1 = now.host) := by
  constructor
  · intro hfail
    simp [getHostname, h, hfail]
  · intro hok
    simp [getHostname, h, hok.1, hok.2]

/-- Witness of C6 at process start, for a failing lookup. -/
theorem getHostname_first_call_witness :
    (((Lookup.mk "" (some "no hostname")).err ≠ none ∨ (Lookup.mk "" (some "no hostname")).host = "")
        → (getHostname (Lookup.mk "" (some "no hostname")) HostState.init).1 = "unknown")
      ∧ (((Lookup.mk "" (some "no hostname")).err = none
          ∧ (Lookup.mk "" (some "no hostname")).host ≠ "")
        → (getHostname (Lookup.mk "" (some "no hostname")) HostState.init).1
            = (Lookup.mk "" (some "no hostname")).host) :=
  getHostname_first_call (Lookup.mk "" (some "no hostname")) HostState.init rfl

theorem getHostname_init (now : Lookup) :
    getHostname now HostState.init
      = ((if now.err ≠ none ∨ now.host = "" then "unknown" else now.host),
         { done := true,
           cachedHostname := if now.err ≠ none ∨ now.host = "" then "unknown" else now.host,
           lookups := 1 }) := by
  simp [getHostname, HostState.init]

theorem Call_run_eq (call : Call) (hs : HostState) :
    call.run hs = getHostname call.lookup hs := by
  cases call <;> rfl

theorem runProcess_eq (calls : List Call) (hs : HostState) :
    runProcess calls hs = getHostnameRun (calls.map Call.lookup) hs := by
  induction calls generalizing hs with
  | nil => rfl
  | cons call rest ih =>
    simp only [runProcess, List.map_cons, getHostnameRun, Call_run_eq, ih]

theorem getHostnameRun_init (first : Lookup) (later : List Lookup) :
    getHostnameRun (first :: later) HostState.init
      = (List.replicate (later.length + 1)
           (if first.err ≠ none ∨ first.host = "" then "unknown" else first.host),
         { done := true,
           cachedHostname :=
             if first.err ≠ none ∨ first.host = "" then "unknown" else first.host,
           lookups := 1 }) := by
  simp only [getHostnameRun, getHostname_init]
  rw [getHostnameRun_done later _ rfl]
  simp [List.replicate_succ]

/-- C7: in any run of `getHostname` calls from process start, the lookup is
performed once, by the first call, and never again. The first call returns
what the lookup answers at that time (`unknown` for an error or an empty
name); the count of lookups is 1 after it and still 1 after the last call;
every call of the run returns the first call's value and the cache ends
holding it, whatever the lookup would have answered later. Hence a request
handled or a debug message logged after any such run carries that value as
`Hostname` and leaves the cache as it is, and in a process made of requests
and debug calls every record emitted has the `Hostname` resolved by the
first call. -/
theorem getHostname_resolves_once (first : Lookup) (later : List Lookup)
    (call : Call) (calls : List Call)
    (componentName message status level : String) (start stop now : ClockReading)
    (host : Lookup) (steps : List Action) (c : GinContext GinWriter)
    (ctx : Option SpanContext) (stack : List Frame) :
    (getHostname first HostState.init).2.lookups = 1
      ∧ (getHostnameRun (first :: later) HostState.init).2.lookups = 1
      ∧ (getHostnameRun (first :: later) HostState.init).1.length = later.length + 1
      ∧ (∀ v ∈ (getHostnameRun (first :: later) HostState.init).1,
          v = (getHostname first HostState.init).1)
      ∧ (getHostname first HostState.init).1
          = (if first.err ≠ none ∨ first.host = "" then "unknown" else first.host)
      ∧ (getHostnameRun (first :: later) HostState.init).2
          = { done := true,
              cachedHostname :=
                if first.err ≠ none ∨ first.host = "" then "unknown" else first.host,
              lookups := 1 }
      ∧ (LoggingMiddleware componentName start stop host
            (getHostnameRun (first :: later) HostState.init).2 steps c).record.Hostname
          = (if first.err ≠ none ∨ first.host = "" then "unknown" else first.host)
      ∧ (LoggingMiddleware componentName start stop host
            (getHostnameRun (first :: later) HostState.init).2 steps c).host
          = (getHostnameRun (first :: later) HostState.init).2
      ∧ (LogDebugMessage ctx componentName message status level stack now host
            (getHostnameRun (first :: later) HostState.init).2).1.Hostname
          = (if first.err ≠ none ∨ first.host = "" then "unknown" else first.host)
      ∧ (LogDebugMessage ctx componentName message status level stack now host
            (getHostnameRun (first :: later) HostState.init).2).2
          = (getHostnameRun (first :: later) HostState.init).2
      ∧ (runProcess (call :: calls) HostState.init).1.length = calls.length + 1
      ∧ (∀ h ∈ (runProcess (call :: calls) HostState.init).1,
          h = (if call.lookup.err ≠ none ∨ call.lookup.host = "" then "unknown"
               else call.lookup.host))
      ∧ (runProcess (call :: calls) HostState.init).2
          = { done := true,
              cachedHostname :=
                if call.lookup.err ≠ none ∨ call.lookup.host = "" then "unknown"
                else call.lookup.host,
              lookups := 1 } := by
  have hrun := getHostnameRun_init first later
  have hproc : runProcess (call :: calls) HostState.init
      = getHostnameRun (call.lookup :: calls.map Call.lookup) HostState.init :=
    runProcess_eq (call :: calls) HostState.init
  have hprun := getHostnameRun_init call.lookup (calls.map Call.lookup)
  have hmid : ∀ hs : HostState,
      (LoggingMiddleware componentName start stop host hs steps c).record.Hostname
          = (getHostname host hs).1
        ∧ (LoggingMiddleware componentName start stop host hs steps c).host
          = (getHostname host hs).2 := fun _ => ⟨rfl, rfl⟩
  have hdbg : ∀ hs : HostState,
      (LogDebugMessage ctx componentName message status level stack now host hs).1.Hostname
          = (getHostname host hs).1
        ∧ (LogDebugMessage ctx componentName message status level stack now host hs).2
          = (getHostname host hs).2 := fun _ => ⟨rfl, rfl⟩
  refine ⟨?_, ?_, ?_, ?_, ?_, ?_, ?_, ?_, ?_, ?_, ?_, ?_, ?_⟩
  · rw [getHostname_init]
  · rw [hrun]
  · rw [hrun]
    simp
  · intro v hv
    rw [hrun] at hv
    rw [getHostname_init]
    exact (List.mem_replicate.mp hv).2
  · rw [getHostname_init]
  · rw [hrun]
  · rw [(hmid _).1, hrun, getHostname_done host _ rfl]
  · rw [(hmid _).2, hrun, getHostname_done host _ rfl]
  · rw [(hdbg _).1, hrun, getHostname_done host _ rfl]
  · rw [(hdbg _).2, hrun, getHostname_done host _ rfl]
  · rw [hproc, hprun]
    simp
  · intro h hh
    rw [hproc, hprun] at hh
    exact (List.mem_replicate.mp hh).2
  · rw [hproc, hprun]

/-- C8 fails as stated: in the `GET /health` scenario the record's `Size` is
11, the byte count of the body written, and not 12. -/
theorem health_Size_not_12 :
    okBody.length = 11
      ∧ (LoggingMiddleware "svc" clockStart clockFiveLater lookupOk HostState.init
          [Action.WriteHeader 200, Action.Write okBody { n := 11, err := none }]
          { Request := healthRequest, Writer := GinWriter.fresh }).record.Size ≠ 12 := by
  decide

/-- C8, amended: for a `GET` request with `RequestURI` `/health` on a fresh
writer, whose downstream handler sets status 200 and writes the 11-byte body
through `Write`, with 5 ms of wall-clock time between the two clock readings,
the record has `Status` 200, `Duration` 5, the body written as
`ResponseBody`, `Size` 11, `RequestMethod` `GET` and `ApiUrl` `/health`. -/
theorem health_record (componentName : String) (start stop : ClockReading)
    (host : Lookup) (hs : HostState) (req : Request) (res : WriteResult)
    (hmethod : req.Method = "GET") (huri : req.RequestURI = "/health")
    (hclock : stop.wall = start.wall + 5000000) :
    (LoggingMiddleware componentName start stop host hs
        [Action.WriteHeader 200, Action.Write okBody res]
        { Request := req, Writer := GinWriter.fresh }).record.Status = 200
      ∧ (LoggingMiddleware componentName start stop host hs
        [Action.WriteHeader 200, Action.Write okBody res]
        { Request := req, Writer := GinWriter.fresh }).record.Duration = 5
      ∧ (LoggingMiddleware componentName start stop host hs
        [Action.WriteHeader 200, Action.Write okBody res]
        { Request := req, Writer := GinWriter.fresh }).record.ResponseBody = okBody
      ∧ (LoggingMiddleware componentName start stop host hs
        [Action.WriteHeader 200, Action.Write okBody res]
        { Request := req, Writer := GinWriter.fresh }).record.Size = 11
      ∧ (LoggingMiddleware componentName start stop host hs
        [Action.WriteHeader 200, Action.Write okBody res]
        { Request := req, Writer := GinWriter.fresh }).record.RequestMethod = "GET"
      ∧ (LoggingMiddleware componentName start stop host hs
        [Action.WriteHeader 200, Action.Write okBody res]
        { Request := req, Writer := GinWriter.fresh }).record.ApiUrl = "/health" := by
  have h1 := start.wall_lt
  have h2 := stop.wall_lt
  have hreq := Next_request [Action.WriteHeader 200, Action.Write okBody res]
    (beforeNext start { Request := req, Writer := GinWriter.fresh }).c
  have hbefore : (beforeNext start { Request := req, Writer := GinWriter.fresh }).c.Request.Method
        = req.Method
      ∧ (beforeNext start { Request := req, Writer := GinWriter.fresh }).c.Request.RequestURI
        = req.RequestURI := by
    unfold beforeNext
    cases req.Body <;> exact ⟨rfl, rfl⟩
  refine ⟨?_, ?_, ?_, ?_, ?_, ?_⟩
  · rfl
  · show toInt (Milliseconds (saturate ((stop.wall : Int) - start.wall))) = 5
    have hdiff : (stop.wall : Int) - start.wall = 5000000 := by omega
    rw [hdiff]
    decide
  · rw [record_ResponseBody]
    simp [Action.captured]
  · show ((Next _ _).Writer.body.Len : Int) = 11
    rw [Next_body]
    simp [Buffer.Len, Action.captured, beforeNext, Buffer.new]
    decide
  · show (Next _ _).Request.Method = "GET"
    rw [hreq.1, hbefore.1, hmethod]
  · show (Next _ _).Request.RequestURI = "/health"
    rw [hreq.2.1, hbefore.2, huri]

/-- Witness of the amended C8 on the bodyless `GET /health`. -/
theorem health_record_witness :
    (LoggingMiddleware "svc" clockStart clockFiveLater lookupOk HostState.init
        [Action.WriteHeader 200, Action.Write okBody { n := 11, err := none }]
        { Request := healthRequest, Writer := GinWriter.fresh }).record.Status = 200
      ∧ (LoggingMiddleware "svc" clockStart clockFiveLater lookupOk HostState.init
        [Action.WriteHeader 200, Action.Write okBody { n := 11, err := none }]
        { Request := healthRequest, Writer := GinWriter.fresh }).record.Duration = 5
      ∧ (LoggingMiddleware "svc" clockStart clockFiveLater lookupOk HostState.init
        [Action.WriteHeader 200, Action.Write okBody { n := 11, err := none }]
        { Request := healthRequest, Writer := GinWriter.fresh }).record.ResponseBody = okBody
      ∧ (LoggingMiddleware "svc" clockStart clockFiveLater lookupOk HostState.init
        [Action.WriteHeader 200, Action.Write okBody { n := 11, err := none }]
        { Request := healthRequest, Writer := GinWriter.fresh }).record.Size = 11
      ∧ (LoggingMiddleware "svc" clockStart clockFiveLater lookupOk HostState.init
        [Action.WriteHeader 200, Action.Write okBody { n := 11, err := none }]
        { Request := healthRequest, Writer := GinWriter.fresh }).record.RequestMethod = "GET"
      ∧ (LoggingMiddleware "svc" clockStart clockFiveLater lookupOk HostState.init
        [Action.WriteHeader 200, Action.Write okBody { n := 11, err := none }]
        { Request := healthRequest, Writer := GinWriter.fresh }).record.ApiUrl = "/health" :=
  health_record "svc" clockStart clockFiveLater lookupOk HostState.init healthRequest
    { n := 11, err := none } rfl rfl (by decide)

/-- C9 fails as stated: for a request that carries no span, the record's
`TraceID` and `SpanID` are not the empty string. -/
theorem TraceID_not_empty_without_span :
    healthRequest.Context = none
      ∧ (LoggingMiddleware "svc" clockStart clockFiveLater lookupOk HostState.init []
          { Request := healthRequest, Writer := GinWriter.fresh }).record.TraceID ≠ ""
      ∧ (LoggingMiddleware "svc" clockStart clockFiveLater lookupOk HostState.init []
          { Request := healthRequest, Writer := GinWriter.fresh }).record.SpanID ≠ "" := by
  decide

/-- C9, amended: for a request whose context carries no span, the handler
builds its record all the same, with the hex form of the all-zero
identifiers: `TraceID` is 32 zero digits and `SpanID` is 16 zero digits. -/
theorem TraceID_zero_without_span (componentName : String) (start stop : ClockReading)
    (host : Lookup) (hs : HostState) (steps : List Action) (c : GinContext GinWriter)
    (hctx : c.Request.Context = none) :
    (LoggingMiddleware componentName start stop host hs steps c).record.TraceID
        = "00000000000000000000000000000000"
      ∧ (LoggingMiddleware componentName start stop host hs steps c).record.SpanID
        = "0000000000000000" := by
  constructor
  · show TraceID.String (SpanFromContext c.Request.Context).traceID = _
    rw [hctx]
    decide
  · show SpanID.String (SpanFromContext c.Request.Context).spanID = _
    rw [hctx]
    decide

/-- Witness of the amended C9 on the bodyless `GET /health`. -/
theorem TraceID_zero_without_span_witness :
    (LoggingMiddleware "svc" clockStart clockFiveLater lookupOk HostState.init []
        { Request := healthRequest, Writer := GinWriter.fresh }).record.TraceID
        = "00000000000000000000000000000000"
      ∧ (LoggingMiddleware "svc" clockStart clockFiveLater lookupOk HostState.init []
        { Request := healthRequest, Writer := GinWriter.fresh }).record.SpanID
        = "0000000000000000" :=
  TraceID_zero_without_span "svc" clockStart clockFiveLater lookupOk HostState.init []
    { Request := healthRequest, Writer := GinWriter.fresh } rfl

/-- C10, evaluated on the code: when a function in `auth.go` calls
`LogDebugMessage` directly at line 42, having been called from line 10 of
`main.go`, the record carries `main.go` and line 10, the call site of the
caller's caller, and not `auth.go` and line 42. -/
theorem LogDebugMessage_reports_callers_caller :
    directCallStack.get? 1 = some { file := "/app/svc/auth.go", line := 42 }
      ∧ (LogDebugMessage none "auth" "token expired" "WARN" "WARN" directCallStack
          clockStart lookupOk HostState.init).1.Filename = "main.go"
      ∧ (LogDebugMessage none "auth" "token expired" "WARN" "WARN" directCallStack
          clockStart lookupOk HostState.init).1.Line = 10 := by
  decide

/-- The frame `LogDebugMessage` reports is always the one two levels above its
own. -/
theorem LogDebugMessage_frame (ctx : Option SpanContext)
    (componentName message status level : String) (stack : List Frame) (now : ClockReading)
    (host : Lookup) (hs : HostState) (f : Frame) (h : stack.get? 2 = some f) :
    (LogDebugMessage ctx componentName message status level stack now host hs).1.Filename
        = filepathBase f.file
      ∧ (LogDebugMessage ctx componentName message status level stack now host hs).1.Line
        = f.line := by
  simp only [LogDebugMessage, runtimeCaller, h, and_self]

end Logger
